import Mathlib

/-!
Verification development for the aic-win repository (a terminal bridge that
multiplexes one operator across several interactive AI CLI tools).

The definitions below are a shallow embedding of the TypeScript sources:

* `PersistentPtyManager` (persistent-pty-manager portion of the source tree):
  the per-session lifecycle state machine and the response-capture protocol
  (prompt-pattern detection racing an idle timeout under a hard overall
  timeout).
* `SDKSession` (sdk-session.ts): stdin detach handling in interactive mode,
  conversation-history bookkeeping of `sendToTool`, and `handleForward`
  (target selection and forward-prompt composition).
* `stripAnsi` and friends (utils.ts): the exact regex pipelines are embedded
  as character-list scanners with the same left-to-right, non-overlapping
  match semantics as JavaScript `String.replace` with a global regex.

JavaScript strings are modelled as Lean `String`s (code points instead of
UTF-16 units; all constants involved are in the basic plane), timers as
optional deadlines (`Option Nat`, `none` = cleared), promise settlement as
explicit `Event`s, and `Date.now()` as a `Nat` parameter.
-/

namespace AicWin

/-! ## Generic string helpers (JavaScript semantics) -/

/-- `listStartsWith pat l` is true when `pat` is an initial segment of `l`. -/
def listStartsWith : List Char → List Char → Bool
  | [], _ => true
  | _ :: _, [] => false
  | p :: ps, c :: cs => p == c && listStartsWith ps cs

/-- `listHasSub pat l`: does `pat` occur contiguously inside `l`?
Mirrors JavaScript `String.prototype.includes`. -/
def listHasSub (pat : List Char) : List Char → Bool
  | [] => pat.isEmpty
  | c :: cs => listStartsWith pat (c :: cs) || listHasSub pat cs

/-- JavaScript `str.includes(pat)`. -/
def strContains (s pat : String) : Bool :=
  listHasSub pat.toList s.toList

/-- Worker for `removeSubList`.  The fuel argument only forces structural
recursion; every step consumes at least one character, so the wrapper's fuel
(the input length) never runs out and the zero-fuel fallback is inert. -/
def removeSubAux (pat : List Char) : Nat → List Char → List Char
  | _, [] => []
  | 0, l => l
  | fuel + 1, c :: cs =>
    if pat.length > 0 && listStartsWith pat (c :: cs) then
      removeSubAux pat fuel (cs.drop (pat.length - 1))
    else
      c :: removeSubAux pat fuel cs

/-- Remove every (non-overlapping, leftmost-first) occurrence of `pat`.
Mirrors JavaScript `str.split(pat).join('')` for a non-empty `pat`;
for the empty pattern that JavaScript expression is the identity. -/
def removeSubList (pat : List Char) (l : List Char) : List Char :=
  removeSubAux pat l.length l

/-- JavaScript `s.split(pat).join('')`. -/
def removeSubstr (pat s : String) : String :=
  String.mk (removeSubList pat.toList s.toList)

/-- JavaScript `s.slice(-n)`: the last `n` units of `s` (whole string when
`n` is at least the length). -/
def strTakeRight (s : String) (n : Nat) : String :=
  String.mk ((s.toList.reverse.take n).reverse)

/-- ASCII lowercasing of a string, as used on tool names
(JavaScript `toLowerCase` restricted to the ASCII names in play). -/
def toLowerStr (s : String) : String :=
  String.mk (s.toList.map Char.toLower)

/-- Whitespace, as both JavaScript `trim` and the whitespace character class
treat the strings in play (space, tab, newline, carriage return). -/
def isWsChar (c : Char) : Bool :=
  c == ' ' || c == '\t' || c == '\n' || c == '\r'

/-- JavaScript `s.trim()`. -/
def strTrim (s : String) : String :=
  String.mk (((s.toList.dropWhile isWsChar).reverse.dropWhile isWsChar).reverse)

/-- JavaScript `parts.join(' ')`. -/
def joinSpace : List String → String
  | [] => ""
  | [x] => x
  | x :: xs => x ++ " " ++ joinSpace xs

/-! ## stripAnsi (utils.ts)

`stripAnsi` removes every match of its regex: an ESC byte followed either by
one byte in `0x40-0x5A` or `0x5C-0x5F`, or by `[`, then parameter bytes
`0x30-0x3F`, intermediate bytes `0x20-0x2F` and one final byte `0x40-0x7E`. -/

/-- Parameter byte of a CSI sequence (code `0x30` to `0x3F`). -/
def isCsiParam (c : Char) : Bool := decide (0x30 ≤ c.toNat ∧ c.toNat ≤ 0x3F)

/-- Intermediate byte of a CSI sequence (code `0x20` to `0x2F`). -/
def isCsiInter (c : Char) : Bool := decide (0x20 ≤ c.toNat ∧ c.toNat ≤ 0x2F)

/-- Final byte of a CSI sequence (code `0x40` to `0x7E`). -/
def isCsiFinal (c : Char) : Bool := decide (0x40 ≤ c.toNat ∧ c.toNat ≤ 0x7E)

/-- Single-character escape following ESC (code `0x40-0x5A` or `0x5C-0x5F`). -/
def isEscSingle (c : Char) : Bool :=
  decide ((0x40 ≤ c.toNat ∧ c.toNat ≤ 0x5A) ∨ (0x5C ≤ c.toNat ∧ c.toNat ≤ 0x5F))

/-- Given the characters after `ESC [`, the number of characters making up
the body of a complete CSI sequence (parameter bytes, then intermediate
bytes, then one final byte), or `none` when the sequence is incomplete. -/
def ansiCsiConsume (l : List Char) : Option Nat :=
  let p := (l.takeWhile isCsiParam).length
  let rest1 := l.drop p
  let i := (rest1.takeWhile isCsiInter).length
  match rest1.drop i with
  | f :: _ => if isCsiFinal f then some (p + i + 1) else none
  | [] => none

/-- Worker for `stripAnsiList` (fuel forces structural recursion; every step
consumes at least one character, so the wrapper's fuel never runs out). -/
def stripAnsiAux : Nat → List Char → List Char
  | _, [] => []
  | 0, l => l
  | fuel + 1, c :: rest =>
    if c = '\x1b' then
      match rest with
      | [] => [c]
      | c2 :: rest2 =>
        if isEscSingle c2 then stripAnsiAux fuel rest2
        else if c2 = '[' then
          match ansiCsiConsume rest2 with
          | some n => stripAnsiAux fuel (rest2.drop n)
          | none => c :: stripAnsiAux fuel (c2 :: rest2)
        else c :: stripAnsiAux fuel (c2 :: rest2)
    else c :: stripAnsiAux fuel rest

/-- The scanner behind `stripAnsi` on character lists. -/
def stripAnsiList (l : List Char) : List Char :=
  stripAnsiAux l.length l

/-- utils.ts `stripAnsi`: removes all ANSI escape sequences. -/
def stripAnsi (s : String) : String :=
  String.mk (stripAnsiList s.toList)

/-! ## The "real content" stripping pipeline of `handleData`

`PersistentPtyManager.handleData` judges whether an output chunk carries real
content by applying, in order: a replace of ANSI CSI-with-letter sequences, a
replace of mode-change sequences, a replace of cursor-style sequences, a
removal of spinner frames and carriage returns, and a trim.  Each regex is
embedded as a scanner over ESC-bracket sequences with a matcher that reports
how many characters a match consumes after `ESC [`. -/

/-- Worker for `scanCsi` (fuel forces structural recursion; every step
consumes at least one character, so the wrapper's fuel never runs out). -/
def scanCsiAux (consume : List Char → Option Nat) : Nat → List Char → List Char
  | _, [] => []
  | 0, l => l
  | fuel + 1, c :: rest =>
    if c = '\x1b' then
      match rest with
      | [] => [c]
      | c2 :: rest2 =>
        if c2 = '[' then
          match consume rest2 with
          | some n => scanCsiAux consume fuel (rest2.drop n)
          | none => c :: scanCsiAux consume fuel (c2 :: rest2)
        else c :: scanCsiAux consume fuel (c2 :: rest2)
    else c :: scanCsiAux consume fuel rest

/-- Generic scanner for a global-replace of `ESC [` sequences: wherever
`ESC [` is followed by a body accepted by `consume`, the whole sequence is
removed; other characters are kept. -/
def scanCsi (consume : List Char → Option Nat) (l : List Char) : List Char :=
  scanCsiAux consume l.length l

/-- Parameter byte of the first handleData regex: digits or semicolon. -/
def isAnsiParamChar (c : Char) : Bool := c.isDigit || c == ';'

/-- Body of the first handleData regex after `ESC [`: digit-or-semicolon
bytes followed by one ASCII letter. -/
def letterConsume (l : List Char) : Option Nat :=
  let k := (l.takeWhile isAnsiParamChar).length
  match l.drop k with
  | f :: _ => if f.isAlpha then some (k + 1) else none
  | [] => none

/-- Body of the mode-change regex after `ESC [`: an optional question mark,
one or more digits, then `h` or `l`. -/
def modeConsume (l : List Char) : Option Nat :=
  let q : Nat := match l with
                 | '?' :: _ => 1
                 | _ => 0
  let rest := l.drop q
  let d := (rest.takeWhile Char.isDigit).length
  if d = 0 then none
  else match rest.drop d with
       | f :: _ => if f == 'h' || f == 'l' then some (q + d + 1) else none
       | [] => none

/-- Body of the cursor-style regex after `ESC [`: digits, an optional space,
then `q`. -/
def cursorConsume (l : List Char) : Option Nat :=
  let d := (l.takeWhile Char.isDigit).length
  let rest := l.drop d
  let sp : Nat := match rest with
                  | ' ' :: _ => 1
                  | _ => 0
  match rest.drop sp with
  | 'q' :: _ => some (d + sp + 1)
  | _ => none

/-- The ten braille spinner frames stripped by handleData. -/
def spinnerFrames : List Char :=
  ['⠋', '⠙', '⠹', '⠸', '⠼', '⠴', '⠦', '⠧', '⠇', '⠏']

/-- The full stripping pipeline handleData applies to an output chunk before
deciding whether to reset the idle timer (ANSI codes, mode changes, cursor
style, spinner frames, carriage returns, then trim). -/
def stripCaptureNoise (data : String) : String :=
  let l1 := scanCsi letterConsume data.toList
  let l2 := scanCsi modeConsume l1
  let l3 := scanCsi cursorConsume l2
  let l4 := l3.filter (fun c => !(spinnerFrames.contains c))
  let l5 := l4.filter (fun c => !(c == '\r'))
  strTrim (String.mk l5)

/-- A chunk has "real content" exactly when the stripped chunk is non-empty
(handleData: `stripped.length > 0`). -/
def hasRealContent (data : String) : Bool :=
  (stripCaptureNoise data).length > 0

/-! ## PersistentPtyManager: state machine and capture protocol

Embedding of the `PersistentPtyManager` class.  The mutable fields of the
class become `MgrState`; the `currentCapture` record keeps its two timers as
optional deadlines (`none` = cleared / not set); promise settlement and
stdout forwarding become explicit `Event`s returned beside the new state. -/

/-- The `PtyState` enum: lifecycle states of a persistent PTY session. -/
inductive PtyState
  | spawning
  | idle
  | processing
  | attached
  | dead
deriving DecidableEq

/-- The `ResponseCapture` record of a pending `sendAndCapture` call.
`hardDeadline` is the overall timeout (`timeoutId`), `idleDeadline` the idle
timeout (`idleTimeoutId`); `none` means the timer is cleared. -/
structure Capture where
  output : String
  hardDeadline : Option Nat
  idleDeadline : Option Nat
  startTime : Nat
deriving DecidableEq

/-- The per-tool `PtyConfig`: prompt pattern (a predicate standing for the
regular expression test), idle timeout duration, and the pluggable output
sanitizer `cleanResponse`. -/
structure PtyConfig where
  name : String
  displayName : String
  promptPattern : String → Bool
  idleTimeout : Nat
  cleanResponse : String → String

/-- Mutable state of a `PersistentPtyManager` instance.  `ptyAlive` mirrors
`this.pty !== null`. -/
structure MgrState where
  state : PtyState
  outputBuffer : String
  capture : Option Capture
  isAttached : Bool
  isReady : Bool
  suppressExitMessage : Bool
  ptyAlive : Bool
deriving DecidableEq

/-- Observable effects of a manager step: settlement of the pending capture
promise, or bytes echoed to the local stdout while attached. -/
inductive Event
  | resolved (text : String)
  | rejected (msg : String)
  | stdout (data : String)
deriving DecidableEq

/-- Focus-report sequences filtered while attached. -/
def FOCUS_IN_SEQ : String := "\x1b[I"

/-- Focus-report sequences filtered while attached (focus out). -/
def FOCUS_OUT_SEQ : String := "\x1b[O"

/-- The ring-buffer byte cap of `handleData` (100 KiB). -/
def MAX_BUFFER : Nat := 100 * 1024

/-- `completeCapture`: clear both timers, run the output sanitizer over the
accumulated raw output, resolve the pending promise with the sanitized text,
drop the capture and return to Idle. -/
def completeCapture (cfg : PtyConfig) (s : MgrState) : MgrState × Option Event :=
  match s.capture with
  | none => (s, none)
  | some cap =>
    ({ s with capture := none, state := PtyState.idle },
     some (Event.resolved (cfg.cleanResponse cap.output)))

/-- The idle-timeout callback installed by `resetIdleTimeout`: when it fires
with a capture still pending, the capture completes. -/
def fireIdleTimeout (cfg : PtyConfig) (s : MgrState) : MgrState × Option Event :=
  match s.capture with
  | none => (s, none)
  | some _ => completeCapture cfg s

/-- The overall-timeout callback installed by `sendAndCapture`: clear the
idle timer, discard the capture, return to Idle and reject the caller with a
timeout error; the child process is not touched. -/
def fireHardTimeout (timeoutMs : Nat) (s : MgrState) : MgrState × Option Event :=
  match s.capture with
  | none => (s, none)
  | some _ =>
    ({ s with capture := none, state := PtyState.idle },
     some (Event.rejected
       ("Response timeout after " ++ toString (timeoutMs / 1000) ++ " seconds")))

/-- `handleExit`: the PTY exit handler.  The session always transitions to
Dead; when the exit message is suppressed (intentional silent kill) the
handler returns before rejecting any pending capture, otherwise a pending
capture is rejected with a message carrying the exit code. -/
def handleExit (cfg : PtyConfig) (exitCode : Int) (s : MgrState) :
    MgrState × Option Event :=
  let s1 := { s with state := PtyState.dead, ptyAlive := false, isReady := false }
  if s1.suppressExitMessage then
    ({ s1 with suppressExitMessage := false }, none)
  else
    match s1.capture with
    | some _ =>
      ({ s1 with capture := none },
       some (Event.rejected
         (cfg.displayName ++ " exited with code " ++ toString exitCode)))
    | none => (s1, none)

/-- `kill`: kill the PTY process, optionally suppressing the exit handling
(the process-exit event still arrives later and runs `handleExit`). -/
def kill (silent : Bool) (s : MgrState) : MgrState :=
  let s1 := if silent then { s with suppressExitMessage := true } else s
  { s1 with ptyAlive := false, state := PtyState.dead }

/-- `attach`: enter interactive mode (no-op when already attached). -/
def attach (s : MgrState) : MgrState :=
  if s.isAttached then s
  else { s with isAttached := true, state := PtyState.attached }

/-- `detach`: leave interactive mode (no-op when not attached). -/
def detach (s : MgrState) : MgrState :=
  if !s.isAttached then s
  else { s with isAttached := false, state := PtyState.idle }

/-- Buffer update at the top of `handleData`: reset on a screen-clear
sequence, append the chunk, then cap at the last `MAX_BUFFER` units. -/
def nextBuffer (data buf : String) : String :=
  let b0 := if strContains data "\x1b[2J" || strContains data "\x1b[H\x1b[2J"
            then "" else buf
  let b1 := b0 ++ data
  if b1.length > MAX_BUFFER then strTakeRight b1 MAX_BUFFER else b1

/-- Prompt detection of `handleData`: the tool's prompt pattern is tested
against the ANSI-stripped trailing 500 units of the output buffer. -/
def promptSeen (cfg : PtyConfig) (buf : String) : Bool :=
  cfg.promptPattern (stripAnsi (strTakeRight buf 500))

/-- While attached, the chunk is echoed to local stdout with focus-report
sequences filtered out (and dropped entirely if nothing remains). -/
def attachEcho (s : MgrState) (data : String) : List Event :=
  if s.isAttached then
    let filteredData := removeSubstr FOCUS_OUT_SEQ (removeSubstr FOCUS_IN_SEQ data)
    if filteredData.length > 0 then [Event.stdout filteredData] else []
  else []

/-- The prompt-reaction block of `handleData`: on a prompt match, either mark
the tool ready for the first time, or complete a pending capture, or settle a
Processing session back to Idle. -/
def promptPhase (cfg : PtyConfig) (buf : String) (s : MgrState) :
    MgrState × List Event :=
  if promptSeen cfg buf then
    if !s.isReady then
      ({ s with isReady := true, state := PtyState.idle }, [])
    else
      match s.capture with
      | some _ =>
        let r := completeCapture cfg s
        (r.1, r.2.toList)
      | none =>
        if s.state = PtyState.processing then
          ({ s with state := PtyState.idle }, [])
        else (s, [])
  else (s, [])

/-- The accumulation block of `handleData`: while a capture is pending, the
raw chunk is appended to the capture output and the idle timer is reset
exactly when the chunk has real content. -/
def accumulatePhase (cfg : PtyConfig) (now : Nat) (data : String)
    (s : MgrState) : MgrState :=
  match s.capture with
  | none => s
  | some cap =>
    let cap1 := { cap with output := cap.output ++ data }
    let cap2 := if hasRealContent data
                then { cap1 with idleDeadline := some (now + cfg.idleTimeout) }
                else cap1
    { s with capture := some cap2 }

/-- `handleData`: the PTY data handler — buffer maintenance, attached echo,
prompt reaction, then capture accumulation, in the order of the source. -/
def handleData (cfg : PtyConfig) (now : Nat) (data : String) (s : MgrState) :
    MgrState × List Event :=
  let buf := nextBuffer data s.outputBuffer
  let echo := attachEcho s data
  let pp := promptPhase cfg buf { s with outputBuffer := buf }
  (accumulatePhase cfg now data pp.1, echo ++ pp.2)

/-- Result of a `sendAndCapture` call: a synchronous rejection (busy or
attached), or the capture started with the message written to the child. -/
inductive SendOutcome
  | busy (msg : String)
  | attachedReject (msg : String)
  | started (next : MgrState) (written : String)
deriving DecidableEq

/-- The bytes a `sendAndCapture` call writes to the child process. -/
def sendWrites : SendOutcome → Option String
  | SendOutcome.started _ w => some w
  | _ => none

/-- Default overall timeout of `sendAndCapture` (milliseconds). -/
def defaultSendTimeout : Nat := 120000

/-- `sendAndCapture`: reject synchronously while Processing or while a user
is attached (before any bytes are written); otherwise install the capture
with both timers armed, move to Processing and write the message followed by
a newline.  The spawn-if-dead and ready-await steps that precede the checks
write none of the message and are omitted. -/
def sendAndCapture (cfg : PtyConfig) (now timeoutMs : Nat) (message : String)
    (s : MgrState) : SendOutcome :=
  if s.state = PtyState.processing then
    SendOutcome.busy (cfg.displayName ++ " is still processing a previous request")
  else if s.isAttached then
    SendOutcome.attachedReject
      "Cannot send message while attached. Use /i to interact directly."
  else
    SendOutcome.started
      { s with
        state := PtyState.processing
        ptyAlive := true
        capture := some
          { output := ""
            hardDeadline := some (now + timeoutMs)
            idleDeadline := some (now + cfg.idleTimeout)
            startTime := now } }
      (message ++ "\n")

/-! ## SDKSession (sdk-session.ts)

Conversation history, the stdin detach handler of interactive mode, and
`handleForward` (target selection and forward-prompt composition). -/

/-- A `Message` of the conversation history (`{ tool, role, content }` with
role `user` or `assistant`). -/
structure Message where
  tool : String
  role : String
  content : String
deriving DecidableEq

/-- The registered tool names of `AVAILABLE_TOOLS` in sdk-session.ts. -/
def AVAILABLE_TOOL_NAMES : List String := ["claude", "gemini"]

/-- `getToolDisplayName`: display name lookup over `AVAILABLE_TOOLS`,
falling back to the raw name. -/
def getToolDisplayName (n : String) : String :=
  if n = "claude" then "Claude Code"
  else if n = "gemini" then "Gemini CLI"
  else n

/-- The Ctrl-] detach key (`0x1D`). -/
def DETACH_KEY : String := "\x1d"

/-- What the interactive-mode stdin handler does with a chunk: run the
detach routine (returning without writing to the child), or forward bytes to
the child's PTY. -/
inductive StdinAction
  | detachNow
  | forward (bytes : String)
deriving DecidableEq

/-- The bytes an `StdinAction` writes to the child. -/
def forwardedBytes : StdinAction → String
  | StdinAction.detachNow => ""
  | StdinAction.forward b => b

/-- `onStdinData` of `enterInteractiveMode` (the current version, with the
double-escape fallback): detach when the detach key occurs anywhere in the
chunk; a lone escape within 500 ms of a previous lone escape also detaches,
otherwise it re-arms the escape timer and is forwarded; any other chunk
clears the escape timer and is forwarded.  Returns the action and the new
`lastEscapeTime`. -/
def onStdinData (str : String) (lastEscapeTime now : Nat) : StdinAction × Nat :=
  if strContains str DETACH_KEY then
    (StdinAction.detachNow, lastEscapeTime)
  else if str = "\x1b" then
    (if now - lastEscapeTime < 500 then (StdinAction.detachNow, lastEscapeTime)
     else (StdinAction.forward str, now))
  else
    (StdinAction.forward str, 0)

/-- `sendToTool`: push the user entry, invoke the active tool, and on
success push the assistant entry; on failure pop the entry just pushed.
The tool invocation is abstracted as its result. -/
def sendToTool (history : List Message) (activeTool message : String)
    (result : Except String String) : List Message :=
  let h1 := history ++ [{ tool := activeTool, role := "user", content := message }]
  match result with
  | Except.ok response =>
      h1 ++ [{ tool := activeTool, role := "assistant", content := response }]
  | Except.error _ => h1.dropLast

/-- The `clear` meta command: the history is fully cleared. -/
def clearHistory (_history : List Message) : List Message := []

/-- The history effect of `performDetach`: the captured interactive output,
ANSI-stripped and trimmed, is appended as an assistant entry when the buffer
is non-empty and the cleaned text exceeds the 50-unit threshold. -/
def detachHistoryUpdate (history : List Message)
    (activeTool capturedOutput : String) : List Message :=
  if capturedOutput ≠ "" then
    let cleanedOutput := strTrim (stripAnsi capturedOutput)
    if cleanedOutput.length > 50 then
      history ++ [{ tool := activeTool, role := "assistant", content := cleanedOutput }]
    else history
  else history

/-- Worker for `splitArgs`: collects maximal runs of non-whitespace
characters (`acc` holds the current word reversed). -/
def tokensAux : List Char → List Char → List String
  | acc, [] => if acc.isEmpty then [] else [String.mk acc.reverse]
  | acc, c :: cs =>
    if isWsChar c then
      if acc.isEmpty then tokensAux [] cs
      else String.mk acc.reverse :: tokensAux [] cs
    else tokensAux (c :: acc) cs

/-- JavaScript `argsString.trim().split(whitespace-runs).filter(p => p)`:
the whitespace-separated words of the argument string. -/
def splitArgs (argsString : String) : List String :=
  tokensAux [] argsString.toList

/-- The most recent assistant entry
(`[...history].reverse().find(m => m.role === 'assistant')`). -/
def lastAssistant (history : List Message) : Option Message :=
  history.reverse.find? (fun m => m.role == "assistant")

/-- The forward prompt built by `handleForward` in sdk-session.ts. -/
def buildForwardPrompt (sourceDisplayName content additionalMessage : String) :
    String :=
  let base := "Another AI assistant (" ++ sourceDisplayName ++
    ") provided this response. Please review and share your thoughts:\n\n---\n" ++
    content ++ "\n---"
  if strTrim additionalMessage ≠ "" then
    base ++ "\n\nAdditional context: " ++ strTrim additionalMessage
  else base

/-- Result of `handleForward` up to the point where the forward prompt is
handed to `sendToTool`. -/
inductive ForwardOutcome
  | noResponse
  | ambiguous (candidates : List String)
  | sameTool (tool : String)
  | forwarded (target : String) (prompt : String)
deriving DecidableEq

/-- The selected target of a forward, when one was selected. -/
def targetOf : ForwardOutcome → Option String
  | ForwardOutcome.forwarded t _ => some t
  | _ => none

/-- The composed prompt of a forward, when one was composed. -/
def promptOf : ForwardOutcome → Option String
  | ForwardOutcome.forwarded _ p => some p
  | _ => none

/-- The candidate target set of a forward: all registered tool names minus
the source (`allToolNames.filter(t => t !== sourceTool)`). -/
def candidateTools (toolNames : List String) (sourceTool : String) : List String :=
  toolNames.filter (fun t => t ≠ sourceTool)

/-- `handleForward`: find the last assistant entry (its tool is the source),
form the candidate set of all registered names minus the source, then select
the target — the first argument word when it names a candidate, else the
sole candidate, else fail listing the candidates — guard against the target
equalling the source, and compose the forward prompt.  This is the common
algorithm of `SDKSession.handleForward` (over `AVAILABLE_TOOLS`) and
`InteractiveSession.handleForward` (over the registry names). -/
def handleForward (toolNames : List String) (history : List Message)
    (argsString : String) (displayName : String → String) : ForwardOutcome :=
  match lastAssistant history with
  | none => ForwardOutcome.noResponse
  | some lastResponse =>
    let sourceTool := lastResponse.tool
    let otherTools := candidateTools toolNames sourceTool
    let parts := splitArgs argsString
    let sel : Option (String × String) :=
      match parts with
      | p :: rest =>
        if otherTools.contains (toLowerStr p) then
          some (toLowerStr p, joinSpace rest)
        else
          match otherTools with
          | [t] => some (t, argsString)
          | _ => none
      | [] =>
        match otherTools with
        | [t] => some (t, argsString)
        | _ => none
    match sel with
    | none => ForwardOutcome.ambiguous otherTools
    | some (targetTool, additionalMessage) =>
      if targetTool = sourceTool then ForwardOutcome.sameTool sourceTool
      else
        ForwardOutcome.forwarded targetTool
          (buildForwardPrompt (displayName sourceTool) lastResponse.content
            additionalMessage)

/-- The history effect of a forward: a validation failure leaves the history
untouched; a selected forward runs `sendToTool` on the composed prompt with
the target as the now-active tool. -/
def handleForwardHistory (toolNames : List String) (history : List Message)
    (argsString : String) (displayName : String → String)
    (result : Except String String) : List Message :=
  match handleForward toolNames history argsString displayName with
  | ForwardOutcome.forwarded targetTool forwardPrompt =>
      sendToTool history targetTool forwardPrompt result
  | _ => history

/-- The explicit target named by the first argument word, when that word
names a candidate (the condition of the first selection branch of
`handleForward`). -/
def firstArgTarget (otherTools : List String) (argsString : String) :
    Option String :=
  match splitArgs argsString with
  | p :: _ =>
    if otherTools.contains (toLowerStr p) then some (toLowerStr p) else none
  | [] => none

/-! ## Concrete fixtures used by witnesses and counterexamples -/

/-- A test configuration whose prompt pattern never matches. -/
def cfgNoPrompt : PtyConfig :=
  { name := "tool"
    displayName := "TestTool"
    promptPattern := fun _ => false
    idleTimeout := 1500
    cleanResponse := fun s => s }

/-- A test configuration whose prompt pattern always matches. -/
def cfgAlwaysPrompt : PtyConfig :=
  { name := "tool"
    displayName := "TestTool"
    promptPattern := fun _ => true
    idleTimeout := 1500
    cleanResponse := fun s => s }

/-- A pending capture fixture. -/
def capFix : Capture :=
  { output := "raw-out"
    hardDeadline := some 120000
    idleDeadline := some 1500
    startTime := 0 }

/-- A Processing session with the capture fixture pending. -/
def sProcessing : MgrState :=
  { state := PtyState.processing
    outputBuffer := ""
    capture := some capFix
    isAttached := false
    isReady := true
    suppressExitMessage := false
    ptyAlive := true }

/-- An Idle session with a user attached. -/
def sAttached : MgrState :=
  { state := PtyState.attached
    outputBuffer := ""
    capture := none
    isAttached := true
    isReady := true
    suppressExitMessage := false
    ptyAlive := true }

/-- A two-entry history: the user asked claude "hello" and got "hi". -/
def histAB : List Message :=
  [{ tool := "claude", role := "user", content := "hello" },
   { tool := "claude", role := "assistant", content := "hi" }]

/-! ## Helper lemmas -/

/-- Membership of a list that `contains` an element. -/
theorem mem_of_contains {l : List String} {a : String}
    (h : l.contains a = true) : a ∈ l := by
  simpa [List.contains, List.elem_iff] using h

/-- An element of a filtered-out list differs from the excluded value. -/
theorem ne_of_mem_filter_ne {l : List String} {a b : String}
    (h : a ∈ l.filter (fun x => x ≠ b)) : a ≠ b := by
  have h2 := (List.mem_filter.mp h).2
  simpa using h2

/-- A candidate target is a registered tool different from the source. -/
theorem mem_candidateTools {toolNames : List String} {a src : String}
    (h : a ∈ candidateTools toolNames src) : a ≠ src ∧ a ∈ toolNames := by
  unfold candidateTools at h
  exact ⟨ne_of_mem_filter_ne h, (List.mem_filter.mp h).1⟩

/-- Characterization of `handleForward` when a last assistant entry exists:
the body of the definition with the source instantiated. -/
theorem handleForward_some (toolNames : List String) (history : List Message)
    (argsString : String) (dn : String → String) (la : Message)
    (hla : lastAssistant history = some la) :
    handleForward toolNames history argsString dn =
      (match
        (match splitArgs argsString with
         | p :: rest =>
           if (candidateTools toolNames la.tool).contains (toLowerStr p) then
             some (toLowerStr p, joinSpace rest)
           else
             match candidateTools toolNames la.tool with
             | [t] => some (t, argsString)
             | _ => none
         | [] =>
           match candidateTools toolNames la.tool with
           | [t] => some (t, argsString)
           | _ => none) with
      | none => ForwardOutcome.ambiguous (candidateTools toolNames la.tool)
      | some (targetTool, additionalMessage) =>
        if targetTool = la.tool then ForwardOutcome.sameTool la.tool
        else
          ForwardOutcome.forwarded targetTool
            (buildForwardPrompt (dn la.tool) la.content additionalMessage)) := by
  unfold handleForward
  rw [hla]

/-- `handleForward` when the argument string has no words: the sole
candidate is selected, or the forward is ambiguous. -/
theorem handleForward_nil (toolNames : List String) (history : List Message)
    (argsString : String) (dn : String → String) (la : Message)
    (hla : lastAssistant history = some la)
    (hsplit : splitArgs argsString = []) :
    handleForward toolNames history argsString dn =
      (match
        (match candidateTools toolNames la.tool with
         | [t] => some (t, argsString)
         | _ => none) with
      | none => ForwardOutcome.ambiguous (candidateTools toolNames la.tool)
      | some (targetTool, additionalMessage) =>
        if targetTool = la.tool then ForwardOutcome.sameTool la.tool
        else
          ForwardOutcome.forwarded targetTool
            (buildForwardPrompt (dn la.tool) la.content additionalMessage)) := by
  rw [handleForward_some toolNames history argsString dn la hla, hsplit]

/-- `handleForward` when the argument string has a first word `p`. -/
theorem handleForward_cons (toolNames : List String) (history : List Message)
    (argsString : String) (dn : String → String) (la : Message)
    (p : String) (rest : List String)
    (hla : lastAssistant history = some la)
    (hsplit : splitArgs argsString = p :: rest) :
    handleForward toolNames history argsString dn =
      (match
        (if (candidateTools toolNames la.tool).contains (toLowerStr p) then
           some (toLowerStr p, joinSpace rest)
         else
           match candidateTools toolNames la.tool with
           | [t] => some (t, argsString)
           | _ => none) with
      | none => ForwardOutcome.ambiguous (candidateTools toolNames la.tool)
      | some (targetTool, additionalMessage) =>
        if targetTool = la.tool then ForwardOutcome.sameTool la.tool
        else
          ForwardOutcome.forwarded targetTool
            (buildForwardPrompt (dn la.tool) la.content additionalMessage)) := by
  rw [handleForward_some toolNames history argsString dn la hla, hsplit]

/-- `sendToTool` only ever appends a (possibly empty) suffix. -/
theorem sendToTool_appends (history : List Message)
    (activeTool message : String) (result : Except String String) :
    ∃ suffix, sendToTool history activeTool message result = history ++ suffix := by
  cases result with
  | ok response =>
    exact ⟨[{ tool := activeTool, role := "user", content := message },
            { tool := activeTool, role := "assistant", content := response }],
      by simp [sendToTool]⟩
  | error e =>
    refine ⟨[], ?_⟩
    simp [sendToTool]

/-! ## Claim theorems -/

/-- C1: at most one `sendAndCapture` is in flight per session — a call made
while the session is Processing is rejected immediately with the busy error,
and a call made while a user is attached is rejected with the
cannot-send-while-attached error; in both cases no bytes are written to the
child process. -/
theorem sendAndCapture_busy_or_attached_rejects
    (cfg : PtyConfig) (now timeoutMs : Nat) (message : String) (s : MgrState) :
    (s.state = PtyState.processing →
      sendAndCapture cfg now timeoutMs message s
        = SendOutcome.busy (cfg.displayName ++ " is still processing a previous request")
      ∧ sendWrites (sendAndCapture cfg now timeoutMs message s) = none)
    ∧ (s.state ≠ PtyState.processing → s.isAttached = true →
      sendAndCapture cfg now timeoutMs message s
        = SendOutcome.attachedReject
            "Cannot send message while attached. Use /i to interact directly."
      ∧ sendWrites (sendAndCapture cfg now timeoutMs message s) = none) := by
  constructor
  · intro h
    constructor <;> simp [sendAndCapture, h, sendWrites]
  · intro h1 h2
    constructor <;> simp [sendAndCapture, h1, h2, sendWrites]

/-- Witness for C1: a Processing session and an attached session each reject
a concrete `sendAndCapture` call. -/
theorem sendAndCapture_busy_or_attached_rejects_witness :
    sendAndCapture cfgNoPrompt 0 120000 "msg" sProcessing
      = SendOutcome.busy
          (cfgNoPrompt.displayName ++ " is still processing a previous request")
    ∧ sendAndCapture cfgNoPrompt 0 120000 "msg" sAttached
      = SendOutcome.attachedReject
          "Cannot send message while attached. Use /i to interact directly." := by
  constructor
  · exact ((sendAndCapture_busy_or_attached_rejects cfgNoPrompt 0 120000 "msg"
      sProcessing).1 rfl).1
  · exact ((sendAndCapture_busy_or_attached_rejects cfgNoPrompt 0 120000 "msg"
      sAttached).2 (by decide) rfl).1

/-- C2 counterexample: after an intentional silent kill
(`kill(true)` sets `suppressExitMessage`), the exit handler returns without
rejecting the pending capture — the capture stays pending (until the overall
timeout) instead of being rejected with the exit code. -/
theorem handleExit_silent_kill_drops_capture :
    (handleExit cfgNoPrompt 1 (kill true sProcessing)).2 = none
    ∧ ((handleExit cfgNoPrompt 1 (kill true sProcessing)).1).capture = some capFix := by
  constructor <;> rfl

/-- C2 (amended): when the exit is not marked silent, a child exit with a
pending capture rejects that capture with an error carrying the exit code
and moves the session to Dead (the Dead transition happens on every exit). -/
theorem handleExit_rejects_pending_capture
    (cfg : PtyConfig) (exitCode : Int) (s : MgrState) (cap : Capture)
    (hsup : s.suppressExitMessage = false) (hcap : s.capture = some cap) :
    handleExit cfg exitCode s
      = ({ s with
            state := PtyState.dead
            ptyAlive := false
            isReady := false
            capture := none },
         some (Event.rejected
           (cfg.displayName ++ " exited with code " ++ toString exitCode)))
    ∧ (handleExit cfg exitCode s).1.state = PtyState.dead := by
  have h : handleExit cfg exitCode s
      = ({ s with
            state := PtyState.dead
            ptyAlive := false
            isReady := false
            capture := none },
         some (Event.rejected
           (cfg.displayName ++ " exited with code " ++ toString exitCode))) := by
    simp [handleExit, hsup, hcap]
  exact ⟨h, by rw [h]⟩

/-- Witness for C2 (amended): a concrete non-silent exit with a pending
capture is rejected with the exit code in the message. -/
theorem handleExit_rejects_pending_capture_witness :
    handleExit cfgNoPrompt 1 sProcessing
      = ({ sProcessing with
            state := PtyState.dead
            ptyAlive := false
            isReady := false
            capture := none },
         some (Event.rejected
           (cfgNoPrompt.displayName ++ " exited with code " ++ toString (1 : Int)))) :=
  (handleExit_rejects_pending_capture cfgNoPrompt 1 sProcessing capFix rfl rfl).1

/-- C3: whichever completion signal fires first finishes the capture — a
prompt-pattern match against the stripped trailing window inside
`handleData`, or the idle timeout — and in both cases the capture record
(owning both timers, which `completeCapture` clears) is discarded, the
sanitizer `cleanResponse` is applied to the accumulated raw output, the
caller is resolved with the sanitized text, and the session returns to
Idle. -/
theorem capture_completion_signals
    (cfg : PtyConfig) (now : Nat) (data : String) (s : MgrState) (cap : Capture)
    (hcap : s.capture = some cap) (hready : s.isReady = true) :
    (promptSeen cfg (nextBuffer data s.outputBuffer) = true →
      (handleData cfg now data s).1.capture = none
      ∧ (handleData cfg now data s).1.state = PtyState.idle
      ∧ Event.resolved (cfg.cleanResponse cap.output) ∈ (handleData cfg now data s).2)
    ∧ ((fireIdleTimeout cfg s).1.capture = none
      ∧ (fireIdleTimeout cfg s).1.state = PtyState.idle
      ∧ (fireIdleTimeout cfg s).2 = some (Event.resolved (cfg.cleanResponse cap.output))) := by
  constructor
  · intro hp
    refine ⟨?_, ?_, ?_⟩ <;>
      simp [handleData, promptPhase, accumulatePhase, completeCapture, hp, hcap, hready]
  · refine ⟨?_, ?_, ?_⟩ <;> simp [fireIdleTimeout, completeCapture, hcap]

/-- Witness for C3: with an always-matching prompt pattern, a concrete chunk
completes the pending capture; the idle-timeout path resolves with the
sanitized output. -/
theorem capture_completion_signals_witness :
    (handleData cfgAlwaysPrompt 0 "x" sProcessing).1.capture = none
    ∧ (fireIdleTimeout cfgAlwaysPrompt sProcessing).2
        = some (Event.resolved (cfgAlwaysPrompt.cleanResponse capFix.output)) := by
  have h := capture_completion_signals cfgAlwaysPrompt 0 "x" sProcessing capFix rfl rfl
  exact ⟨(h.1 rfl).1, h.2.2.2⟩

/-- C7: the hard overall timeout (default 120000 ms) rejects the call with a
timeout error, discards the capture state (with its idle timer), returns the
session to Idle, and leaves the child process running (`ptyAlive` is
untouched). -/
theorem hard_timeout_discards_capture
    (s : MgrState) (cap : Capture) (hcap : s.capture = some cap) :
    fireHardTimeout defaultSendTimeout s
      = ({ s with capture := none, state := PtyState.idle },
         some (Event.rejected "Response timeout after 120 seconds"))
    ∧ ({ s with capture := none, state := PtyState.idle }).ptyAlive = s.ptyAlive
    ∧ defaultSendTimeout = 120000 := by
  refine ⟨?_, rfl, rfl⟩
  simp [fireHardTimeout, hcap]
  rfl

/-- Witness for C7: the default hard timeout fires against a concrete
Processing session. -/
theorem hard_timeout_discards_capture_witness :
    fireHardTimeout defaultSendTimeout sProcessing
      = ({ sProcessing with capture := none, state := PtyState.idle },
         some (Event.rejected "Response timeout after 120 seconds")) :=
  (hard_timeout_discards_capture sProcessing capFix rfl).1

/-- C8: during an in-flight capture (with no prompt match completing it),
an output chunk resets the idle timer exactly when it has real content —
the chunk stripped of ANSI codes, mode changes, cursor-style sequences,
spinner frames and carriage returns is non-empty after trimming; a
noise-only chunk is still accumulated but leaves the idle deadline
unchanged. -/
theorem idle_reset_iff_real_content
    (cfg : PtyConfig) (now : Nat) (data : String) (s : MgrState) (cap : Capture)
    (hcap : s.capture = some cap)
    (hnp : promptSeen cfg (nextBuffer data s.outputBuffer) = false) :
    (hasRealContent data = true →
      (handleData cfg now data s).1.capture
        = some { cap with
                  output := cap.output ++ data
                  idleDeadline := some (now + cfg.idleTimeout) })
    ∧ (hasRealContent data = false →
      (handleData cfg now data s).1.capture
        = some { cap with output := cap.output ++ data }) := by
  constructor
  · intro h
    simp [handleData, promptPhase, accumulatePhase, hnp, hcap, h]
  · intro h
    simp [handleData, promptPhase, accumulatePhase, hnp, hcap, h]

/-- Witness for C8: a concrete content chunk re-arms the idle deadline, a
spinner-and-carriage-return chunk does not. -/
theorem idle_reset_iff_real_content_witness :
    (handleData cfgNoPrompt 7 "hello" sProcessing).1.capture
      = some { capFix with
                output := capFix.output ++ "hello"
                idleDeadline := some (7 + cfgNoPrompt.idleTimeout) }
    ∧ (handleData cfgNoPrompt 7 "⠋\r" sProcessing).1.capture
      = some { capFix with output := capFix.output ++ "⠋\r" } := by
  constructor
  · exact (idle_reset_iff_real_content cfgNoPrompt 7 "hello" sProcessing capFix
      rfl rfl).1 (by decide)
  · exact (idle_reset_iff_real_content cfgNoPrompt 7 "⠋\r" sProcessing capFix
      rfl rfl).2 (by decide)

/-- C4 counterexample: a chunk with the detach key embedded mid-buffer
(`"ab\x1dcd"`) does trigger detach, but nothing of the chunk is forwarded to
the child — in particular the bytes `"ab"` before the signal are discarded,
not forwarded. -/
theorem detach_mid_chunk_discards_entire_chunk :
    (onStdinData "ab\x1dcd" 0 1000).1 = StdinAction.detachNow
    ∧ forwardedBytes (onStdinData "ab\x1dcd" 0 1000).1 = ""
    ∧ forwardedBytes (onStdinData "ab\x1dcd" 0 1000).1 ≠ "ab" := by
  refine ⟨rfl, rfl, ?_⟩
  decide

/-- C4 (amended): while attached, a detach signal found anywhere within an
incoming stdin chunk — not only as the entire chunk — triggers detach, and
the entire chunk (the bytes before the signal included) is discarded rather
than forwarded to the child. -/
theorem detach_signal_anywhere_triggers_detach
    (str : String) (lastEscapeTime now : Nat)
    (h : strContains str DETACH_KEY = true) :
    onStdinData str lastEscapeTime now = (StdinAction.detachNow, lastEscapeTime)
    ∧ forwardedBytes (onStdinData str lastEscapeTime now).1 = "" := by
  constructor
  · simp [onStdinData, h]
  · simp [onStdinData, h, forwardedBytes]

/-- Witness for C4 (amended): a concrete chunk with the detach key between
other bytes detaches. -/
theorem detach_signal_anywhere_triggers_detach_witness :
    onStdinData "xy\x1dz" 3 4 = (StdinAction.detachNow, 3) :=
  (detach_signal_anywhere_triggers_detach "xy\x1dz" 3 4 (by decide)).1

/-- C5: evaluating `handleForward` at the failing input — a history where
the user asked claude "hello" and claude answered "hi", with no extra
message.  The composed prompt opens with the adjective-based label
"Another AI assistant (Claude Code)" and does not contain the user's
original query "hello"; only the response "hi" is quoted between the
dashes. -/
theorem forward_prompt_adjective_label_no_query :
    handleForward AVAILABLE_TOOL_NAMES histAB "" getToolDisplayName
      = ForwardOutcome.forwarded "gemini"
          "Another AI assistant (Claude Code) provided this response. Please review and share your thoughts:\n\n---\nhi\n---"
    ∧ strContains
        "Another AI assistant (Claude Code) provided this response. Please review and share your thoughts:\n\n---\nhi\n---"
        "Another AI" = true
    ∧ strContains
        "Another AI assistant (Claude Code) provided this response. Please review and share your thoughts:\n\n---\nhi\n---"
        "hello" = false
    ∧ strContains
        "Another AI assistant (Claude Code) provided this response. Please review and share your thoughts:\n\n---\nhi\n---"
        "hi" = true := by
  refine ⟨?_, ?_, ?_, ?_⟩ <;> decide

/-- C6 counterexample: with tools claude and gemini and the last response
from claude, explicitly requesting the source tool
(`/forward claude check`) is NOT rejected with a same-tool error: the word
"claude" is not in the candidate set, so the sole candidate gemini is
auto-selected and "claude check" is treated as the additional message. -/
theorem forward_explicit_source_not_rejected :
    handleForward AVAILABLE_TOOL_NAMES histAB "claude check" getToolDisplayName
      = ForwardOutcome.forwarded "gemini"
          "Another AI assistant (Claude Code) provided this response. Please review and share your thoughts:\n\n---\nhi\n---\n\nAdditional context: claude check"
    ∧ handleForward AVAILABLE_TOOL_NAMES histAB "claude check" getToolDisplayName
      ≠ ForwardOutcome.sameTool "claude" := by
  constructor <;> decide

/-- C6 (amended): forward target selection over the candidate set (all
registered names minus the source of the last assistant entry): (a) a first
argument word naming a candidate is used as the target with the remaining
words as the message; (b) otherwise, a sole candidate is auto-selected with
the whole argument string as the message — a first word naming the source
tool is treated as message text, not as a target, so it never produces a
same-tool error; (c) otherwise the forward fails listing all candidates;
(d) a selected target always lies in the candidate set and is never the
source tool. -/
theorem forward_target_selection
    (toolNames : List String) (history : List Message) (argsString : String)
    (dn : String → String) (la : Message)
    (hla : lastAssistant history = some la) :
    (∀ p rest, splitArgs argsString = p :: rest →
      (candidateTools toolNames la.tool).contains (toLowerStr p) = true →
      handleForward toolNames history argsString dn
        = ForwardOutcome.forwarded (toLowerStr p)
            (buildForwardPrompt (dn la.tool) la.content (joinSpace rest)))
    ∧ (∀ t, candidateTools toolNames la.tool = [t] →
      firstArgTarget (candidateTools toolNames la.tool) argsString = none →
      handleForward toolNames history argsString dn
        = ForwardOutcome.forwarded t
            (buildForwardPrompt (dn la.tool) la.content argsString))
    ∧ (firstArgTarget (candidateTools toolNames la.tool) argsString = none →
      (candidateTools toolNames la.tool).length ≠ 1 →
      handleForward toolNames history argsString dn
        = ForwardOutcome.ambiguous (candidateTools toolNames la.tool))
    ∧ (∀ tgt pr, handleForward toolNames history argsString dn
        = ForwardOutcome.forwarded tgt pr →
      tgt ≠ la.tool ∧ tgt ∈ candidateTools toolNames la.tool) := by
  refine ⟨?_, ?_, ?_, ?_⟩
  · intro p rest hsplit hcont
    have hneq := (mem_candidateTools (mem_of_contains hcont)).1
    rw [handleForward_cons toolNames history argsString dn la p rest hla hsplit,
      hcont]
    simp [hneq]
  · intro t hsingle hfa
    have hmem : t ∈ candidateTools toolNames la.tool := by
      rw [hsingle]; exact List.mem_singleton_self t
    have hneq := (mem_candidateTools hmem).1
    unfold firstArgTarget at hfa
    cases hsplit : splitArgs argsString with
    | nil =>
      rw [handleForward_nil toolNames history argsString dn la hla hsplit,
        hsingle]
      simp [hneq]
    | cons p rest =>
      rw [hsplit] at hfa
      have hfa2 : (if (candidateTools toolNames la.tool).contains (toLowerStr p)
            = true
          then some (toLowerStr p) else none) = (none : Option String) := hfa
      cases hcont : (candidateTools toolNames la.tool).contains (toLowerStr p) with
      | true => rw [hcont] at hfa2; simp at hfa2
      | false =>
        rw [handleForward_cons toolNames history argsString dn la p rest hla
          hsplit, hcont, hsingle]
        simp [hneq]
  · intro hfa hlen
    have hnotone : ∀ u, candidateTools toolNames la.tool ≠ [u] := by
      intro u hu
      exact hlen (by rw [hu]; rfl)
    unfold firstArgTarget at hfa
    cases hsplit : splitArgs argsString with
    | nil =>
      rw [handleForward_nil toolNames history argsString dn la hla hsplit]
      cases hshape : candidateTools toolNames la.tool with
      | nil => rfl
      | cons u us =>
        cases us with
        | nil => exact absurd hshape (hnotone u)
        | cons u2 us2 => rfl
    | cons p rest =>
      rw [hsplit] at hfa
      have hfa2 : (if (candidateTools toolNames la.tool).contains (toLowerStr p)
            = true
          then some (toLowerStr p) else none) = (none : Option String) := hfa
      cases hcont : (candidateTools toolNames la.tool).contains (toLowerStr p) with
      | true => rw [hcont] at hfa2; simp at hfa2
      | false =>
        rw [handleForward_cons toolNames history argsString dn la p rest hla
          hsplit, hcont]
        cases hshape : candidateTools toolNames la.tool with
        | nil => rfl
        | cons u us =>
          cases us with
          | nil => exact absurd hshape (hnotone u)
          | cons u2 us2 => rfl
  · intro tgt pr heq
    cases hsplit : splitArgs argsString with
    | nil =>
      rw [handleForward_nil toolNames history argsString dn la hla hsplit] at heq
      cases hshape : candidateTools toolNames la.tool with
      | nil => rw [hshape] at heq; simp at heq
      | cons u us =>
        cases us with
        | nil =>
          have hmem : u ∈ candidateTools toolNames la.tool := by
            rw [hshape]; exact List.mem_singleton_self u
          have hneq := (mem_candidateTools hmem).1
          rw [hshape] at heq
          simp [hneq] at heq
          obtain ⟨h1, h2⟩ := heq
          subst h1
          exact ⟨hneq, List.mem_singleton_self _⟩
        | cons u2 us2 => rw [hshape] at heq; simp at heq
    | cons p rest =>
      rw [handleForward_cons toolNames history argsString dn la p rest hla
        hsplit] at heq
      cases hcont : (candidateTools toolNames la.tool).contains (toLowerStr p) with
      | true =>
        have hmem := mem_of_contains hcont
        have hneq := (mem_candidateTools hmem).1
        rw [hcont] at heq
        simp [hneq] at heq
        obtain ⟨h1, h2⟩ := heq
        subst h1
        exact ⟨hneq, hmem⟩
      | false =>
        rw [hcont] at heq
        cases hshape : candidateTools toolNames la.tool with
        | nil => rw [hshape] at heq; simp at heq
        | cons u us =>
          cases us with
          | nil =>
            have hmem : u ∈ candidateTools toolNames la.tool := by
              rw [hshape]; exact List.mem_singleton_self u
            have hneq := (mem_candidateTools hmem).1
            rw [hshape] at heq
            simp [hneq] at heq
            obtain ⟨h1, h2⟩ := heq
            subst h1
            exact ⟨hneq, List.mem_singleton_self _⟩
          | cons u2 us2 => rw [hshape] at heq; simp at heq

/-- Witness for C6 (amended): with two registered tools and no argument,
the sole candidate gemini is auto-selected. -/
theorem forward_target_selection_witness :
    handleForward AVAILABLE_TOOL_NAMES histAB "" getToolDisplayName
      = ForwardOutcome.forwarded "gemini"
          (buildForwardPrompt (getToolDisplayName "claude") "hi" "") := by
  have h := forward_target_selection AVAILABLE_TOOL_NAMES histAB ""
    getToolDisplayName { tool := "claude", role := "assistant", content := "hi" }
    (by decide)
  exact h.2.1 "gemini" (by decide) (by decide)

/-- C9: at the granularity of the session operations, the conversation log
is append-only — sending, detaching and forwarding each produce the old
history followed by a (possibly empty) suffix of new entries, and the clear
command produces the empty log; no operation removes or modifies an entry
that existed before the operation. -/
theorem history_append_only
    (history : List Message) (activeTool message capturedOutput argsString : String)
    (toolNames : List String) (dn : String → String)
    (result : Except String String) :
    (∃ suffix, sendToTool history activeTool message result = history ++ suffix)
    ∧ (∃ suffix, detachHistoryUpdate history activeTool capturedOutput
        = history ++ suffix)
    ∧ (∃ suffix, handleForwardHistory toolNames history argsString dn result
        = history ++ suffix)
    ∧ clearHistory history = [] := by
  refine ⟨sendToTool_appends history activeTool message result, ?_, ?_, rfl⟩
  · by_cases h1 : capturedOutput = ""
    · exact ⟨[], by simp [detachHistoryUpdate, h1]⟩
    · by_cases h2 : (strTrim (stripAnsi capturedOutput)).length > 50
      · refine ⟨[{ tool := activeTool
                   role := "assistant"
                   content := strTrim (stripAnsi capturedOutput) }], ?_⟩
        simp [detachHistoryUpdate, h1, h2]
      · exact ⟨[], by simp [detachHistoryUpdate, h1, h2]⟩
  · cases hf : handleForward toolNames history argsString dn with
    | forwarded tgt pr =>
      have := sendToTool_appends history tgt pr result
      simpa [handleForwardHistory, hf] using this
    | noResponse => exact ⟨[], by simp [handleForwardHistory, hf]⟩
    | ambiguous c => exact ⟨[], by simp [handleForwardHistory, hf]⟩
    | sameTool t => exact ⟨[], by simp [handleForwardHistory, hf]⟩

/-- C10: `sendToTool` is atomic with respect to the history — a failing tool
invocation leaves the history exactly as it was before the call (the user
entry pushed before the attempt is popped again), and a successful one
appends exactly the user entry and the assistant entry. -/
theorem sendToTool_atomic (history : List Message) (activeTool message : String) :
    (∀ err, sendToTool history activeTool message (Except.error err) = history)
    ∧ (∀ response, sendToTool history activeTool message (Except.ok response)
        = history ++
          [{ tool := activeTool, role := "user", content := message },
           { tool := activeTool, role := "assistant", content := response }]) := by
  constructor
  · intro err
    simp [sendToTool]
  · intro response
    simp [sendToTool]

end AicWin
